import Mathlib

/-!
# Shallow embedding of the flask-shopping-list-manager core

This development embeds the optimistic-concurrency / soft-delete data layer
of the shopping-list application: the `ShoppingList` and `ShoppingListItem`
models (`app/models.py`), the marshmallow validation schemas
(`app/api/schemas.py`), the authorization decorators (`app/api/decorators.py`)
and the API v1 endpoint handlers (`app/api/v1/lists.py`, `app/api/v1/items.py`,
`app/api/v1/shared.py`).

Modelling conventions:
* Timestamps (`datetime.now(timezone.utc)`) are modelled as a `Nat` clock value
  passed to each operation as `now`; `deleted_at` is `Option Nat`
  (`none` = the SQL `NULL`, i.e. the entity is active).
* GUIDs (`uuid.uuid4()`) are modelled as natural numbers drawn from a
  fresh-value counter `nextGuid` carried in the database state; the `guid`
  column is declared `unique=True` in `models.py`, and `uuid4` never repeats a
  value already present, which the counter makes literal.
* The two tables are Lean lists of records; SQLAlchemy queries
  (`.filter`, `.filter_by(...).first()`, `query.get`) become `List.filter`
  and `List.find?`.
* Each handler returns `Except ApiError σ`: raising one of the `APIError`
  subclasses of `app/api/errors.py` is the `.error` branch, and a successful
  commit returns the updated database state.
-/

namespace ShoppingApp

/-- The authenticated principal, as resolved by `get_current_user`
(`app/api/decorators.py`): only the id and the admin flag are consulted by
the list/item operations. -/
structure User where
  id : Nat
  is_admin : Bool
deriving Repr, DecidableEq

/-- Row of the `shopping_lists` table (`app/models.py`, class `ShoppingList`),
including the `version` column added by migration
`d5f9b3a8c2e7_add_version_columns_optimistic_locking.py`
(Integer, server_default '1'). -/
structure ShoppingList where
  id : Nat
  guid : Nat
  title : String
  user_id : Nat
  is_shared : Bool
  version : Nat
  created_at : Nat
  updated_at : Nat
  deleted_at : Option Nat
deriving Repr, DecidableEq

/-- Row of the `shopping_list_items` table (`app/models.py`, class
`ShoppingListItem`), including the `version` column added by the same
migration. -/
structure ShoppingListItem where
  id : Nat
  shopping_list_id : Nat
  name : String
  quantity : String
  is_checked : Bool
  order_index : Nat
  version : Nat
  created_at : Nat
  deleted_at : Option Nat
deriving Repr, DecidableEq

/-- The relational store: the two tables plus the fresh-value counters used
to model `uuid.uuid4()` and the item autoincrement primary key. -/
structure DB where
  lists : List ShoppingList
  items : List ShoppingListItem
  nextGuid : Nat
  nextItemId : Nat
deriving Repr, DecidableEq

/-- The typed failures of `app/api/errors.py` that the list/item handlers
raise: `NotFoundError` (404), `ForbiddenError` (403), `ConflictError` (409,
carrying `current_version`/`expected_version` as structured detail),
`ValidationError` (400) and the 404 `LIST_NOT_SHARED` error response of
`app/api/v1/shared.py`. -/
inductive ApiError where
  | notFound
  | forbidden
  | conflict (current : Nat) (expected : Int)
  | validationError
  | listNotShared
deriving Repr, DecidableEq

/-! ## Lifecycle query layer (`models.py` classmethods) -/

/-- `ShoppingList.active().filter_by(id=list_id).first()`. -/
def findActiveList (db : DB) (lid : Nat) : Option ShoppingList :=
  db.lists.find? (fun l => l.id == lid && l.deleted_at.isNone)

/-- `ShoppingList.deleted().filter_by(id=list_id).first()`. -/
def findDeletedList (db : DB) (lid : Nat) : Option ShoppingList :=
  db.lists.find? (fun l => l.id == lid && l.deleted_at.isSome)

/-- `ShoppingList.query.get(list_id)` — any partition, used by the
authorization decorators. -/
def getListAnyPartition (db : DB) (lid : Nat) : Option ShoppingList :=
  db.lists.find? (fun l => l.id == lid)

/-- `ShoppingListItem.active().filter_by(id=item_id).first()`. -/
def findActiveItem (db : DB) (iid : Nat) : Option ShoppingListItem :=
  db.items.find? (fun i => i.id == iid && i.deleted_at.isNone)

/-- `ShoppingListItem.deleted().filter_by(id=item_id).first()`. -/
def findDeletedItem (db : DB) (iid : Nat) : Option ShoppingListItem :=
  db.items.find? (fun i => i.id == iid && i.deleted_at.isSome)

/-- `ShoppingListItem.active().filter_by(shopping_list_id=list_id)` — the
active items of one list. -/
def activeItemsOf (db : DB) (lid : Nat) : List ShoppingListItem :=
  db.items.filter (fun i => i.shopping_list_id == lid && i.deleted_at.isNone)

/-! ## Model-layer mutators (`models.py`) -/

/-- `ShoppingListItem.soft_delete()`: sets `deleted_at = now`. -/
def ShoppingListItem.softDelete (i : ShoppingListItem) (now : Nat) : ShoppingListItem :=
  { i with deleted_at := some now }

/-- `ShoppingListItem.restore()`: clears `deleted_at`. -/
def ShoppingListItem.restore (i : ShoppingListItem) : ShoppingListItem :=
  { i with deleted_at := none }

/-- `ShoppingList.soft_delete()` applied to the store: sets the list's
`deleted_at` and `updated_at` to now, and iterates `self.items` — the
`lazy='dynamic'` relationship, which yields EVERY item row of the list,
active and trashed alike — calling `Item.soft_delete()` on each one. -/
def dbSoftDeleteList (db : DB) (lid : Nat) (now : Nat) : DB :=
  { db with
    lists := db.lists.map (fun l =>
      if l.id == lid then { l with deleted_at := some now, updated_at := now } else l),
    items := db.items.map (fun i =>
      if i.shopping_list_id == lid then i.softDelete now else i) }

/-- `ShoppingList.restore()` applied to the store: clears the list's
`deleted_at`, refreshes `updated_at`, and calls `Item.restore()` on every
item row of the list (`self.items`, all partitions). -/
def dbRestoreList (db : DB) (lid : Nat) (now : Nat) : DB :=
  { db with
    lists := db.lists.map (fun l =>
      if l.id == lid then { l with deleted_at := none, updated_at := now } else l),
    items := db.items.map (fun i =>
      if i.shopping_list_id == lid then i.restore else i) }

/-- Modelled from the spec: `check_version(expected)` on the versioned
entities. The method is missing from `src/app/models.py` in this snapshot —
only its caller (`app/api/v1/lists.py` line 247) and the pinned behavior in
`tests/test_optimistic_locking.py` are present. Spec §4.1: no-op if
`expected` is absent/null; if present and `expected != current_version`,
fail with a `Conflict` outcome carrying both `current_version` and
`expected_version` as structured detail. -/
def checkVersion (current : Nat) (expected : Option Int) : Except ApiError Unit :=
  match expected with
  | none => .ok ()
  | some e => if e == (current : Int) then .ok () else .error (.conflict current e)

/-- Modelled from the spec: `increment_version()` on `ShoppingList`. The
method is missing from `src/app/models.py` in this snapshot — only its
caller (`app/api/v1/lists.py` line 267) and
`tests/test_optimistic_locking.py` are present. Spec §4.1: sets
`version = version + 1`. -/
def ShoppingList.incrementVersion (l : ShoppingList) : ShoppingList :=
  { l with version := l.version + 1 }

/-! ## Validation schemas (`app/api/schemas.py`)

A request body is modelled as a record of `Option` fields, one per key the
claims are concerned with; marshmallow's default `unknown = RAISE` policy
rejects any key the schema does not declare. -/

/-- Body of `PUT /lists/<id>`. -/
structure ListUpdatePayload where
  title : Option String := none
  is_shared : Option Bool := none
  version : Option Int := none
deriving Repr, DecidableEq

/-- `ShoppingListUpdateSchema.load`. The `title` and `is_shared` fields are
from `app/api/schemas.py` lines 164-167 (`title`: Length 1..200). The
`version` field is Modelled from the spec: it is missing from the schema in
this snapshot, while its consumer (`'version' in validated_data`,
`app/api/v1/lists.py` line 246) and `tests/test_optimistic_locking.py` are
present; spec §4.1 edge policy: version values must be positive integers
≥ 1, and a client-submitted version of 0 or negative is a
request-validation failure. -/
def shoppingListUpdateSchemaLoad (p : ListUpdatePayload) :
    Except ApiError ListUpdatePayload :=
  if p.title.any (fun t => t.length < 1 || t.length > 200) then .error .validationError
  else if p.version.any (fun v => v < 1) then .error .validationError
  else .ok p

/-- Body of `PUT /items/<id>`. The `version` key is NOT declared by
`ShoppingListItemUpdateSchema` in `app/api/schemas.py` (lines 120-124 list
only `name`, `quantity`, `is_checked`); it is carried here so that the
schema's `unknown = RAISE` rejection of it can be stated. -/
structure ItemUpdatePayload where
  name : Option String := none
  quantity : Option String := none
  is_checked : Option Bool := none
  version : Option Int := none
deriving Repr, DecidableEq

/-- `ShoppingListItemUpdateSchema.load` (`app/api/schemas.py` lines
120-124): `name` Length 1..200, `quantity` Length ≤ 50, `is_checked` Bool.
A `version` key is unknown to this schema, so marshmallow's default
`unknown = RAISE` policy rejects the request with a `ValidationError`. -/
def shoppingListItemUpdateSchemaLoad (p : ItemUpdatePayload) :
    Except ApiError ItemUpdatePayload :=
  if p.version.isSome then .error .validationError
  else if p.name.any (fun n => n.length < 1 || n.length > 200) then .error .validationError
  else if p.quantity.any (fun q => q.length > 50) then .error .validationError
  else .ok p

/-- `ShoppingListItemCreateSchema.load`: `name` required, Length 1..200;
`quantity` Length ≤ 50 with load_default `'1'`. The payload here carries the
already-defaulted quantity. -/
def shoppingListItemCreateSchemaLoad (name : String) (quantity : String) :
    Except ApiError Unit :=
  if name.length < 1 || name.length > 200 then .error .validationError
  else if quantity.length > 50 then .error .validationError
  else .ok ()

/-! ## Authorization decorators (`app/api/decorators.py`) -/

/-- `@list_owner_or_admin_required()`: resolves the list via
`ShoppingList.query.get(list_id)` (any partition), raising `NotFoundError`
when absent, `ForbiddenError` unless the principal is an admin or the
list's owner. -/
def listOwnerOrAdminRequired (db : DB) (u : User) (lid : Nat) :
    Except ApiError ShoppingList :=
  match getListAnyPartition db lid with
  | none => .error .notFound
  | some l =>
    if u.is_admin || l.user_id == u.id then .ok l else .error .forbidden

/-- `@list_access_required(allow_shared=...)`: like the owner check but also
granting access when `allow_shared` and the list's `is_shared` flag is set. -/
def listAccessRequired (allowShared : Bool) (db : DB) (u : User) (lid : Nat) :
    Except ApiError ShoppingList :=
  match getListAnyPartition db lid with
  | none => .error .notFound
  | some l =>
    if l.user_id == u.id || u.is_admin || (allowShared && l.is_shared) then .ok l
    else .error .forbidden

/-! ## List endpoints (`app/api/v1/lists.py`) -/

/-- Writes a list row back by id (`db.session.commit()` after mutating the
mapped object). -/
def putList (db : DB) (lid : Nat) (l' : ShoppingList) : DB :=
  { db with lists := db.lists.map (fun x => if x.id == lid then l' else x) }

/-- Writes an item row back by id. -/
def putItem (db : DB) (iid : Nat) (i' : ShoppingListItem) : DB :=
  { db with items := db.items.map (fun x => if x.id == iid then i' else x) }

/-- Refreshes the parent list's `updated_at` (the item handlers all do
`shopping_list.updated_at = datetime.now(...)` on the backref). -/
def touchList (db : DB) (lid : Nat) (now : Nat) : DB :=
  { db with lists := db.lists.map (fun x =>
      if x.id == lid then { x with updated_at := now } else x) }

/-- The field-update block of `update_list` (lines 249-264): apply `title`
when present, then apply `is_shared`, regenerating the GUID whenever the
flag CHANGES in either direction. -/
def applyListUpdate (l : ShoppingList) (vp : ListUpdatePayload)
    (freshGuid : Nat) : ShoppingList :=
  let l1 := match vp.title with
            | some t => { l with title := t }
            | none => l
  match vp.is_shared with
  | some sh =>
    if l1.is_shared != sh then { l1 with guid := freshGuid, is_shared := sh }
    else { l1 with is_shared := sh }
  | none => l1

/-- Whether the `is_shared` branch of `update_list` regenerates the GUID
(the flag is present and differs from the current value). -/
def listUpdateRotates (l : ShoppingList) (vp : ListUpdatePayload) : Bool :=
  match vp.is_shared with
  | some sh => l.is_shared != sh
  | none => false

/-- `PUT /lists/<list_id>` (`update_list`): decorator
`@list_owner_or_admin_required()`, then fetch via `active()`, validate the
body, `check_version` when a version was supplied, apply the field updates
(`applyListUpdate`, consuming a fresh GUID when the sharing flag changes),
then `increment_version()` and refresh `updated_at`. -/
def updateList (db : DB) (u : User) (lid : Nat) (p : ListUpdatePayload)
    (now : Nat) : Except ApiError DB :=
  match listOwnerOrAdminRequired db u lid with
  | .error e => .error e
  | .ok _ =>
    match findActiveList db lid with
    | none => .error .notFound
    | some l =>
      match shoppingListUpdateSchemaLoad p with
      | .error e => .error e
      | .ok vp =>
        match checkVersion l.version vp.version with
        | .error e => .error e
        | .ok _ =>
          let db2 := if listUpdateRotates l vp then
                       { db with nextGuid := db.nextGuid + 1 }
                     else db
          .ok (putList db2 lid
            { (applyListUpdate l vp db.nextGuid).incrementVersion with
              updated_at := now })

/-- `POST /lists/<list_id>/share` (`toggle_share_list`): decorator
`@list_owner_or_admin_required()`, fetch via `active()`, require an
`is_shared` boolean, regenerate the GUID only on a true→false transition
(lines 385-388), set the flag and `updated_at`. The version is NOT
incremented by this handler. -/
def toggleShareList (db : DB) (u : User) (lid : Nat) (is_shared_req : Option Bool)
    (now : Nat) : Except ApiError DB :=
  match listOwnerOrAdminRequired db u lid with
  | .error e => .error e
  | .ok _ =>
    match findActiveList db lid with
    | none => .error .notFound
    | some l =>
      match is_shared_req with
      | none => .error .validationError
      | some sh =>
        let rotate := l.is_shared && !sh
        let l' := if rotate then { l with guid := db.nextGuid } else l
        let l'' := { l' with is_shared := sh, updated_at := now }
        let db' := if rotate then { db with nextGuid := db.nextGuid + 1 } else db
        .ok (putList db' lid l'')

/-- `DELETE /lists/<list_id>` (`delete_list`): decorator
`@list_owner_or_admin_required()`, fetch via `active()`, then
`shopping_list.soft_delete()` (cascading over `self.items`). -/
def deleteList (db : DB) (u : User) (lid : Nat) (now : Nat) : Except ApiError DB :=
  match listOwnerOrAdminRequired db u lid with
  | .error e => .error e
  | .ok _ =>
    match findActiveList db lid with
    | none => .error .notFound
    | some _ => .ok (dbSoftDeleteList db lid now)

/-- `POST /lists/<list_id>/restore` (`restore_list`): decorator
`@list_owner_or_admin_required()`, fetch via `deleted()` (NotFound when the
list is not in the trash), then `shopping_list.restore()`. -/
def restoreList (db : DB) (u : User) (lid : Nat) (now : Nat) : Except ApiError DB :=
  match listOwnerOrAdminRequired db u lid with
  | .error e => .error e
  | .ok _ =>
    match findDeletedList db lid with
    | none => .error .notFound
    | some _ => .ok (dbRestoreList db lid now)

/-- The effect of `db.session.delete(shopping_list)`: the
`cascade='all, delete-orphan'` relationship removes the list row and every
item row belonging to it, trashed or not. -/
def dbHardDeleteList (db : DB) (lid : Nat) : DB :=
  { db with
    lists := db.lists.filter (fun l => l.id != lid),
    items := db.items.filter (fun i => i.shopping_list_id != lid) }

/-- `DELETE /trash/lists/<list_id>` (`permanent_delete_list`): inline admin
check (`ForbiddenError` otherwise), fetch via `deleted()` (NotFound unless
trashed), then `db.session.delete(shopping_list)` — the
`cascade='all, delete-orphan'` relationship hard-deletes every item row of
the list, trashed or not. -/
def permanentDeleteList (db : DB) (u : User) (lid : Nat) : Except ApiError DB :=
  if !u.is_admin then .error .forbidden
  else
    match findDeletedList db lid with
    | none => .error .notFound
    | some _ => .ok (dbHardDeleteList db lid)

/-- `DELETE /admin/lists/<list_id>` (`admin_delete_list`,
`app/api/v1/admin.py` lines 169-200): decorator `@admin_required()`, fetch
via `ShoppingList.query.get` — ANY partition, active lists included — then
`db.session.delete(shopping_list)`, hard-deleting the list and all its
items. No trashed-state check is performed. -/
def adminDeleteList (db : DB) (u : User) (lid : Nat) : Except ApiError DB :=
  if !u.is_admin then .error .forbidden
  else
    match getListAnyPartition db lid with
    | none => .error .notFound
    | some _ => .ok (dbHardDeleteList db lid)

/-- `POST /lists` (`create_list`, `app/api/v1/lists.py` lines 134-199):
validate the body (`ShoppingListCreateSchema`: `title` required, Length
1..200; `is_shared` arriving already defaulted to false), then insert a new
row with the column defaults — a fresh uuid4 GUID (drawn from the
fresh-value counter), version 1 (server default), `deleted_at = NULL`. The
autoincrement primary key is modelled as the `newId` parameter. -/
def createList (db : DB) (u : User) (title : String) (is_shared : Bool)
    (newId now : Nat) : Except ApiError DB :=
  if title.length < 1 || title.length > 200 then .error .validationError
  else
    .ok { db with
          lists := db.lists ++
            [{ id := newId, guid := db.nextGuid, title := title,
               user_id := u.id, is_shared := is_shared, version := 1,
               created_at := now, updated_at := now, deleted_at := none }],
          nextGuid := db.nextGuid + 1 }

/-- `DELETE /users/<user_id>` (`delete_user`, `app/api/v1/users.py` lines
236-283): decorator `@admin_required()`; a 400 error when the admin targets
their own account; then `db.session.delete(user)` — the
`cascade='all, delete-orphan'` chain removes every list owned by the user
and, through the list cascade, every item of those lists. The `users` table
itself lies outside the modelled store (spec §1 scopes the core to lists
and items), so the target-existence lookup is not modelled; the guards on
the principal and the cascade effect on the two modelled tables are. -/
def deleteUser (db : DB) (admin : User) (uid : Nat) : Except ApiError DB :=
  if !admin.is_admin then .error .forbidden
  else if admin.id == uid then .error .validationError
  else
    .ok { db with
          lists := db.lists.filter (fun l => l.user_id != uid),
          items := db.items.filter (fun i =>
            !(db.lists.any (fun l => l.id == i.shopping_list_id &&
              l.user_id == uid))) }

/-! ## Shared (public) endpoints (`app/api/v1/shared.py`) -/

/-- `GET /shared/<guid>` (`get_shared_list`): fetch via
`ShoppingList.active().filter_by(guid=guid).first()`, `NotFoundError` when
nothing matches; a 404 `LIST_NOT_SHARED` error response when the list
exists but its `is_shared` flag is off. -/
def getSharedList (db : DB) (guid : Nat) : Except ApiError ShoppingList :=
  match db.lists.find? (fun l => l.deleted_at.isNone && l.guid == guid) with
  | none => .error .notFound
  | some l => if l.is_shared then .ok l else .error .listNotShared

/-! ## Item endpoints (`app/api/v1/items.py`) -/

/-- The inline access check shared by `get_item`, `update_item`,
`toggle_item` and `delete_item` (items.py lines 233-239 etc.):
`is_owner or is_admin or is_shared` of the parent list. -/
def itemAccessGranted (u : User) (l : ShoppingList) : Bool :=
  l.user_id == u.id || u.is_admin || l.is_shared

/-- `POST /lists/<list_id>/items` (`create_item`): decorator
`@list_access_required(allow_shared=True)`, fetch the list via `active()`,
validate, compute `max(order_index)` over the ACTIVE items of the list
(`or 0`), insert the new row with `order_index = max + 1` and the column
defaults (`is_checked=False`, `version` server_default 1,
`deleted_at=NULL`), refresh the list's `updated_at`. -/
def createItem (db : DB) (u : User) (lid : Nat) (name quantity : String)
    (now : Nat) : Except ApiError DB :=
  match listAccessRequired true db u lid with
  | .error e => .error e
  | .ok _ =>
    match findActiveList db lid with
    | none => .error .notFound
    | some _ =>
      match shoppingListItemCreateSchemaLoad name quantity with
      | .error e => .error e
      | .ok _ =>
        let maxOrder := ((activeItemsOf db lid).map (fun i => i.order_index)).foldr max 0
        let item : ShoppingListItem :=
          { id := db.nextItemId, shopping_list_id := lid, name := name,
            quantity := quantity, is_checked := false,
            order_index := maxOrder + 1, version := 1,
            created_at := now, deleted_at := none }
        .ok { (touchList db lid now) with
              items := db.items ++ [item], nextItemId := db.nextItemId + 1 }

/-- `GET /items/<item_id>` (`get_item`): fetch via `active()`, traverse the
`item.shopping_list` backref (any partition), inline access check. -/
def getItem (db : DB) (u : User) (iid : Nat) : Except ApiError ShoppingListItem :=
  match findActiveItem db iid with
  | none => .error .notFound
  | some it =>
    match getListAnyPartition db it.shopping_list_id with
    | none => .error .notFound
    | some l =>
      if itemAccessGranted u l then .ok it else .error .forbidden

/-- The field-update block of `update_item` (lines 255-263): apply `name`,
`quantity` and `is_checked` when present. -/
def applyItemUpdate (it : ShoppingListItem) (vp : ItemUpdatePayload) :
    ShoppingListItem :=
  let it1 := match vp.name with
             | some n => { it with name := n }
             | none => it
  let it2 := match vp.quantity with
             | some q => { it1 with quantity := q }
             | none => it1
  match vp.is_checked with
  | some c => { it2 with is_checked := c }
  | none => it2

/-- `PUT /items/<item_id>` (`update_item`): fetch via `active()`, inline
access check (owner / admin / shared), validate, apply the field updates
(`applyItemUpdate`), refresh the parent list's `updated_at`. There is NO
version check and NO version increment in this handler. -/
def updateItem (db : DB) (u : User) (iid : Nat) (p : ItemUpdatePayload)
    (now : Nat) : Except ApiError DB :=
  match findActiveItem db iid with
  | none => .error .notFound
  | some it =>
    match getListAnyPartition db it.shopping_list_id with
    | none => .error .notFound
    | some l =>
      if itemAccessGranted u l then
        match shoppingListItemUpdateSchemaLoad p with
        | .error e => .error e
        | .ok vp =>
          .ok (touchList (putItem db iid (applyItemUpdate it vp))
            it.shopping_list_id now)
      else .error .forbidden

/-- `POST /items/<item_id>/toggle` (`toggle_item`): fetch via `active()`,
inline access check (owner / admin / shared), negate `is_checked`, refresh
the parent list's `updated_at`. -/
def toggleItem (db : DB) (u : User) (iid : Nat) (now : Nat) : Except ApiError DB :=
  match findActiveItem db iid with
  | none => .error .notFound
  | some it =>
    match getListAnyPartition db it.shopping_list_id with
    | none => .error .notFound
    | some l =>
      if itemAccessGranted u l then
        .ok (touchList (putItem db iid { it with is_checked := !it.is_checked })
              it.shopping_list_id now)
      else .error .forbidden

/-- `DELETE /items/<item_id>` (`delete_item`): fetch via `active()`, inline
access check (owner / admin / shared), `item.soft_delete()`, refresh the
parent list's `updated_at`. -/
def deleteItem (db : DB) (u : User) (iid : Nat) (now : Nat) : Except ApiError DB :=
  match findActiveItem db iid with
  | none => .error .notFound
  | some it =>
    match getListAnyPartition db it.shopping_list_id with
    | none => .error .notFound
    | some l =>
      if itemAccessGranted u l then
        .ok (touchList (putItem db iid (it.softDelete now)) it.shopping_list_id now)
      else .error .forbidden

/-- `PUT /items/<item_id>/reorder` (`reorder_item`): fetch via `active()`,
access restricted to owner or admin, validate `order_index` (required,
Range min 0), set it directly, refresh the parent list's `updated_at`. -/
def reorderItem (db : DB) (u : User) (iid : Nat) (order_index_req : Option Int)
    (now : Nat) : Except ApiError DB :=
  match findActiveItem db iid with
  | none => .error .notFound
  | some it =>
    match getListAnyPartition db it.shopping_list_id with
    | none => .error .notFound
    | some l =>
      if l.user_id == u.id || u.is_admin then
        match order_index_req with
        | none => .error .validationError
        | some v =>
          if v < 0 then .error .validationError
          else
            .ok (touchList (putItem db iid { it with order_index := v.toNat })
                  it.shopping_list_id now)
      else .error .forbidden

/-- `POST /items/<item_id>/restore` (`restore_item`): fetch via `deleted()`
(NotFound unless trashed), access restricted to owner or admin,
`item.restore()`, refresh the parent list's `updated_at`. The parent
list's own lifecycle state is NOT consulted. -/
def restoreItem (db : DB) (u : User) (iid : Nat) (now : Nat) : Except ApiError DB :=
  match findDeletedItem db iid with
  | none => .error .notFound
  | some it =>
    match getListAnyPartition db it.shopping_list_id with
    | none => .error .notFound
    | some l =>
      if l.user_id == u.id || u.is_admin then
        .ok (touchList (putItem db iid it.restore) it.shopping_list_id now)
      else .error .forbidden

/-- `POST /lists/<list_id>/items/clear-checked` (`clear_checked_items`):
decorator `@list_access_required(allow_shared=False)` (owner or admin
only), fetch the list via `active()`, soft-delete every ACTIVE CHECKED item
of the list in one pass, return the count, refresh `updated_at`. -/
def clearCheckedItems (db : DB) (u : User) (lid : Nat) (now : Nat) :
    Except ApiError (DB × Nat) :=
  match listAccessRequired false db u lid with
  | .error e => .error e
  | .ok _ =>
    match findActiveList db lid with
    | none => .error .notFound
    | some _ =>
      let isTarget : ShoppingListItem → Bool := fun i =>
        i.shopping_list_id == lid && i.deleted_at.isNone && i.is_checked
      let count := (db.items.filter isTarget).length
      .ok ({ (touchList db lid now) with
             items := db.items.map (fun i =>
               if isTarget i then i.softDelete now else i) }, count)

/-! ## Well-formed stores

Uniqueness facts guaranteed by the schema (`id` primary keys, the
`unique=True` GUID column) and by the fresh-value counters. -/

/-- A database state is well-formed when primary keys and GUIDs are unique
and below their fresh-value counters. -/
def DB.wf (db : DB) : Prop :=
  (db.lists.map (fun l => l.id)).Nodup ∧
  (db.items.map (fun i => i.id)).Nodup ∧
  (db.lists.map (fun l => l.guid)).Nodup ∧
  (∀ l ∈ db.lists, l.guid < db.nextGuid) ∧
  (∀ i ∈ db.items, i.id < db.nextItemId)

instance (db : DB) : Decidable db.wf := by
  unfold DB.wf
  infer_instance

/-- The trash-consistency invariant of spec §5: no trashed list has an
active item. -/
def DB.consistentTrash (db : DB) : Prop :=
  ∀ l ∈ db.lists, l.deleted_at ≠ none →
    ∀ i ∈ db.items, i.shopping_list_id = l.id → i.deleted_at ≠ none

instance (db : DB) : Decidable db.consistentTrash := by
  unfold DB.consistentTrash
  infer_instance

/-! ## Query-layer lemmas -/

theorem exists_find_eq_some {α} {p : α → Bool} {xs : List α} {x : α}
    (hx : x ∈ xs) (hpx : p x = true) : ∃ y, xs.find? p = some y :=
  Option.isSome_iff_exists.mp (List.find?_isSome.mpr ⟨x, hx, hpx⟩)

theorem list_unique_by_id {db : DB} (hnd : (db.lists.map (fun x => x.id)).Nodup)
    {x y : ShoppingList} (hx : x ∈ db.lists) (hy : y ∈ db.lists)
    (h : x.id = y.id) : x = y :=
  List.inj_on_of_nodup_map hnd hx hy h

theorem item_unique_by_id {db : DB} (hnd : (db.items.map (fun x => x.id)).Nodup)
    {x y : ShoppingListItem} (hx : x ∈ db.items) (hy : y ∈ db.items)
    (h : x.id = y.id) : x = y :=
  List.inj_on_of_nodup_map hnd hx hy h

theorem findActiveList_spec {db : DB} {lid : Nat} {l : ShoppingList}
    (h : findActiveList db lid = some l) :
    l ∈ db.lists ∧ l.id = lid ∧ l.deleted_at = none := by
  have hmem := List.mem_of_find?_eq_some h
  have hp := List.find?_some h
  simp only [Bool.and_eq_true, beq_iff_eq, Option.isNone_iff_eq_none] at hp
  exact ⟨hmem, hp.1, hp.2⟩

theorem findDeletedList_spec {db : DB} {lid : Nat} {l : ShoppingList}
    (h : findDeletedList db lid = some l) :
    l ∈ db.lists ∧ l.id = lid ∧ l.deleted_at ≠ none := by
  have hmem := List.mem_of_find?_eq_some h
  have hp := List.find?_some h
  simp only [Bool.and_eq_true, beq_iff_eq, Option.isSome_iff_ne_none] at hp
  exact ⟨hmem, hp.1, hp.2⟩

theorem findDeletedItem_spec {db : DB} {iid : Nat} {it : ShoppingListItem}
    (h : findDeletedItem db iid = some it) :
    it ∈ db.items ∧ it.id = iid ∧ it.deleted_at ≠ none := by
  have hmem := List.mem_of_find?_eq_some h
  have hp := List.find?_some h
  simp only [Bool.and_eq_true, beq_iff_eq, Option.isSome_iff_ne_none] at hp
  exact ⟨hmem, hp.1, hp.2⟩

theorem findActiveItem_spec {db : DB} {iid : Nat} {it : ShoppingListItem}
    (h : findActiveItem db iid = some it) :
    it ∈ db.items ∧ it.id = iid ∧ it.deleted_at = none := by
  have hmem := List.mem_of_find?_eq_some h
  have hp := List.find?_some h
  simp only [Bool.and_eq_true, beq_iff_eq, Option.isNone_iff_eq_none] at hp
  exact ⟨hmem, hp.1, hp.2⟩

theorem getListAnyPartition_eq_some {db : DB} {lid : Nat} {l : ShoppingList}
    (hnd : (db.lists.map (fun x => x.id)).Nodup)
    (hmem : l ∈ db.lists) (hid : l.id = lid) :
    getListAnyPartition db lid = some l := by
  unfold getListAnyPartition
  obtain ⟨y, hy⟩ := @exists_find_eq_some _ (fun x => x.id == lid) _ _ hmem (by simp [hid])
  have hymem := List.mem_of_find?_eq_some hy
  have hyp := List.find?_some hy
  simp only [beq_iff_eq] at hyp
  have hyl : y = l := list_unique_by_id hnd hymem hmem (by rw [hyp, hid])
  rw [hy, hyl]

/-- The owner/admin decorator succeeds and returns the (unique) row found
by the handler's own `active()` query. -/
theorem listOwnerOrAdminRequired_ok {db : DB} {u : User} {lid : Nat}
    {l : ShoppingList} (hnd : (db.lists.map (fun x => x.id)).Nodup)
    (hmem : l ∈ db.lists) (hid : l.id = lid)
    (hacc : (u.is_admin || l.user_id == u.id) = true) :
    listOwnerOrAdminRequired db u lid = .ok l := by
  unfold listOwnerOrAdminRequired
  rw [getListAnyPartition_eq_some hnd hmem hid]
  simp [hacc]

theorem listAccessRequired_ok {allowShared : Bool} {db : DB} {u : User}
    {lid : Nat} {l : ShoppingList} (hnd : (db.lists.map (fun x => x.id)).Nodup)
    (hmem : l ∈ db.lists) (hid : l.id = lid)
    (hacc : (l.user_id == u.id || u.is_admin || (allowShared && l.is_shared)) = true) :
    listAccessRequired allowShared db u lid = .ok l := by
  unfold listAccessRequired
  rw [getListAnyPartition_eq_some hnd hmem hid]
  simp [hacc]

/-! ## Sample states used by counterexamples and witnesses -/

/-- An ordinary (non-admin) user. -/
def alice : User := ⟨1, false⟩

/-- An administrator. -/
def rootAdmin : User := ⟨9, true⟩

/-- An active list owned by `alice`, at version 1, not shared. -/
def demoList : ShoppingList :=
  { id := 1, guid := 100, title := "Einkauf", user_id := 1, is_shared := false,
    version := 1, created_at := 0, updated_at := 0, deleted_at := none }

/-- An active, unchecked item of `demoList` at version 1. -/
def demoItemActive : ShoppingListItem :=
  { id := 1, shopping_list_id := 1, name := "Milch", quantity := "1",
    is_checked := false, order_index := 1, version := 1, created_at := 0,
    deleted_at := none }

/-- An item of `demoList` that is already in the trash (`deleted_at = 5`). -/
def demoItemTrashed : ShoppingListItem :=
  { id := 2, shopping_list_id := 1, name := "Brot", quantity := "1",
    is_checked := false, order_index := 2, version := 1, created_at := 0,
    deleted_at := some 5 }

/-- Store with one active list and one active item. -/
def demoDb : DB :=
  { lists := [demoList], items := [demoItemActive], nextGuid := 101, nextItemId := 3 }

/-- Store with one active list, one active item and one already-trashed item. -/
def demoDbTrashedItem : DB :=
  { lists := [demoList], items := [demoItemActive, demoItemTrashed],
    nextGuid := 101, nextItemId := 3 }

/-! ## C1 -/

/-- C1: the claim states that EVERY successful mutating request (update,
toggle, share, reorder, item create on an existing entity) advances the
entity's version by exactly 1. The code does not: evaluated on a store with
one item at version 1 and its list at version 1, a successful item update,
an item toggle, an item reorder and a list share-toggle all leave every
version at 1 — `update_item`, `toggle_item`, `reorder_item` and
`toggle_share_list` never call `increment_version`, contradicting the
repository's own test
`tests/test_optimistic_locking.py::test_update_item_without_version_succeeds`,
which asserts the version becomes 2. -/
theorem c1_mutations_leave_version_unchanged :
    (updateItem demoDb alice 1 { name := some "Hafermilch" } 7).map
      (fun d => d.items.map (fun i => i.version)) = .ok [1] ∧
    (toggleItem demoDb alice 1 7).map
      (fun d => d.items.map (fun i => i.version)) = .ok [1] ∧
    (reorderItem demoDb alice 1 (some 4) 7).map
      (fun d => d.items.map (fun i => i.version)) = .ok [1] ∧
    (toggleShareList demoDb alice 1 (some true) 7).map
      (fun d => d.lists.map (fun l => l.version)) = .ok [1] := by
  refine ⟨rfl, rfl, rfl, rfl⟩

/-! ## C2 -/

/-- C2: the claim states that a mutation on any entity at version N
supplying expected version M ≠ N fails with Conflict carrying
current/expected as detail. For `ShoppingListItem` the code has no conflict
pathway at all: `update_item` performs no version check, and
`ShoppingListItemUpdateSchema` does not declare a `version` field, so a
request supplying one (stale or even correct) dies as a 400 validation
error (marshmallow `unknown = RAISE`), never as a 409 Conflict —
contradicting
`tests/test_optimistic_locking.py::test_update_item_with_wrong_version_returns_409`. -/
theorem c2_item_stale_version_is_validation_error_not_conflict :
    updateItem demoDb alice 1 { name := some "X", version := some 7 } 9 =
      .error .validationError ∧
    updateItem demoDb alice 1 { name := some "X", version := some 1 } 9 =
      .error .validationError :=
  ⟨rfl, rfl⟩

/-! ## C3 -/

/-- C3 counterexample: the claim states that soft-deleting a list invokes
`Item.soft_delete()` on exactly the ACTIVE items and that already-trashed
items are not touched. On a store whose list has an active item and an
item already trashed at time 5, soft-deleting the list at time 10
overwrites the trashed item's `deleted_at` with 10 — the cascade iterates
`self.items`, which yields every item row, trashed ones included. -/
theorem c3_soft_delete_touches_trashed_items :
    demoItemTrashed.deleted_at = some 5 ∧
    (deleteList demoDbTrashedItem alice 1 10).map
      (fun d => d.items.map (fun i => i.deleted_at)) = .ok [some 10, some 10] :=
  ⟨rfl, rfl⟩

/-- C3 (amended): a successful list soft-delete stamps `deleted_at = now`
on the list and on EVERY item belonging to it (active and already-trashed
alike), leaves every other item untouched, and changes no version — neither
the list's nor any item's. -/
theorem c3_soft_delete_cascades_all_items
    (db : DB) (u : User) (lid now : Nat) (l : ShoppingList)
    (hwf : db.wf)
    (hfind : findActiveList db lid = some l)
    (hacc : (u.is_admin || l.user_id == u.id) = true) :
    ∃ db', deleteList db u lid now = .ok db' ∧
      (∀ x ∈ db'.lists, x.id = lid → x.deleted_at = some now) ∧
      (∀ i ∈ db'.items, i.shopping_list_id = lid → i.deleted_at = some now) ∧
      db'.lists.map (fun x => x.version) = db.lists.map (fun x => x.version) ∧
      db'.items.map (fun i => i.version) = db.items.map (fun i => i.version) ∧
      (∀ i ∈ db'.items, i.shopping_list_id ≠ lid → i ∈ db.items) := by
  obtain ⟨hmem, hid, hdel⟩ := findActiveList_spec hfind
  have hdec := listOwnerOrAdminRequired_ok hwf.1 hmem hid hacc
  refine ⟨dbSoftDeleteList db lid now, ?_, ?_, ?_, ?_, ?_, ?_⟩
  · unfold deleteList
    rw [hdec, hfind]
  · intro x hx hxid
    simp only [dbSoftDeleteList, List.mem_map] at hx
    obtain ⟨y, hy, rfl⟩ := hx
    by_cases h : y.id = lid
    · simp [h]
    · simp only [beq_iff_eq, h, if_false] at hxid ⊢
  · intro i hi hiid
    simp only [dbSoftDeleteList, List.mem_map] at hi
    obtain ⟨y, hy, rfl⟩ := hi
    by_cases h : y.shopping_list_id = lid
    · simp [h, ShoppingListItem.softDelete]
    · simp only [beq_iff_eq, h, if_false] at hiid ⊢
  · simp only [dbSoftDeleteList, List.map_map]
    congr 1
    funext x
    simp only [Function.comp]
    split <;> rfl
  · simp only [dbSoftDeleteList, List.map_map]
    congr 1
    funext i
    simp only [Function.comp, ShoppingListItem.softDelete]
    split <;> rfl
  · intro i hi hiid
    simp only [dbSoftDeleteList, List.mem_map] at hi
    obtain ⟨y, hy, rfl⟩ := hi
    by_cases h : y.shopping_list_id = lid
    · simp only [h, beq_self_eq_true, if_true, ShoppingListItem.softDelete] at hiid
      exact absurd rfl hiid
    · simpa [h] using hy

/-- Witness for C3 (amended), at the concrete store with an active and an
already-trashed item. -/
theorem c3_soft_delete_cascades_all_items_witness :
    DB.wf demoDbTrashedItem ∧
    findActiveList demoDbTrashedItem 1 = some demoList ∧
    (alice.is_admin || demoList.user_id == alice.id) = true ∧
    (∃ db', deleteList demoDbTrashedItem alice 1 10 = .ok db' ∧
      (∀ x ∈ db'.lists, x.id = 1 → x.deleted_at = some 10) ∧
      (∀ i ∈ db'.items, i.shopping_list_id = 1 → i.deleted_at = some 10) ∧
      db'.lists.map (fun x => x.version) =
        demoDbTrashedItem.lists.map (fun x => x.version) ∧
      db'.items.map (fun i => i.version) =
        demoDbTrashedItem.items.map (fun i => i.version) ∧
      (∀ i ∈ db'.items, i.shopping_list_id ≠ 1 → i ∈ demoDbTrashedItem.items)) :=
  ⟨by decide, rfl, rfl,
   c3_soft_delete_cascades_all_items demoDbTrashedItem alice 1 10 demoList
     (by decide) rfl rfl⟩

/-! ## C4 -/

/-- C4 counterexample: the claim states that in every state reachable
through the public operations, no trashed list has an active item. Starting
from a store with one active list owning one active item, soft-deleting the
list (trashing both) and then calling the public `restore_item` operation
on the item yields a state whose only list is trashed (`deleted_at = 10`)
while its only item is active (`deleted_at = none`): `restore_item` never
consults the parent list's lifecycle state. -/
theorem c4_restore_item_breaks_trash_consistency :
    ((deleteList demoDb alice 1 10).bind
        (fun d1 => restoreItem d1 alice 1 11)).map
      (fun d => (d.lists.map (fun l => l.deleted_at),
                 d.items.map (fun i => i.deleted_at))) =
      .ok ([some 10], [none]) :=
  rfl

/-! ## C5 -/

theorem nodup_map_of_preserves {α β} (xs : List α) (f : α → α) (key : α → β)
    (hf : ∀ x, key (f x) = key x) (h : (xs.map key).Nodup) :
    ((xs.map f).map key).Nodup := by
  rw [List.map_map]
  have hkf : (key ∘ f) = key := funext hf
  rw [hkf]
  exact h

/-- C5: restoring a list immediately after soft-deleting it brings the list
and every one of its items back to `deleted_at = null`, with the item set
identical to before the deletion (same rows, all fields except the
timestamps preserved) and items of other lists untouched. -/
theorem c5_restore_after_soft_delete_roundtrip
    (db : DB) (u : User) (lid now1 now2 : Nat) (l : ShoppingList)
    (hwf : db.wf)
    (hfind : findActiveList db lid = some l)
    (hacc : (u.is_admin || l.user_id == u.id) = true) :
    ∃ db1 db2, deleteList db u lid now1 = .ok db1 ∧
      restoreList db1 u lid now2 = .ok db2 ∧
      ({ l with deleted_at := none, updated_at := now2 } ∈ db2.lists) ∧
      (∀ x ∈ db2.lists, x.id = lid → x.deleted_at = none ∧ x.guid = l.guid ∧
        x.title = l.title ∧ x.version = l.version ∧
        x.is_shared = l.is_shared ∧ x.user_id = l.user_id) ∧
      (∀ i ∈ db.items, i.shopping_list_id = lid →
        { i with deleted_at := none } ∈ db2.items) ∧
      (∀ j ∈ db2.items, j.shopping_list_id = lid →
        ∃ i ∈ db.items, j = { i with deleted_at := none }) ∧
      (∀ i ∈ db.items, i.shopping_list_id ≠ lid → i ∈ db2.items) := by
  obtain ⟨hmem, hid, hdel⟩ := findActiveList_spec hfind
  have hdec := listOwnerOrAdminRequired_ok hwf.1 hmem hid hacc
  set db1 := dbSoftDeleteList db lid now1 with hdb1
  have hstep1 : deleteList db u lid now1 = .ok db1 := by
    unfold deleteList
    rw [hdec, hfind]
  -- facts about db1
  have hlists1 : db1.lists = db.lists.map (fun x =>
      if x.id == lid then { x with deleted_at := some now1, updated_at := now1 }
      else x) := rfl
  have hitems1 : db1.items = db.items.map (fun i =>
      if i.shopping_list_id == lid then i.softDelete now1 else i) := rfl
  have hnd1 : (db1.lists.map (fun x => x.id)).Nodup := by
    rw [hlists1]
    exact nodup_map_of_preserves db.lists _ _
      (fun x => by split <;> rfl) hwf.1
  have hfl : ({ l with deleted_at := some now1, updated_at := now1 } :
      ShoppingList) ∈ db1.lists := by
    rw [hlists1]
    have := List.mem_map_of_mem (fun x =>
      if x.id == lid then { x with deleted_at := some now1, updated_at := now1 }
      else x) hmem
    simpa [hid] using this
  have hdec1 : listOwnerOrAdminRequired db1 u lid =
      .ok { l with deleted_at := some now1, updated_at := now1 } :=
    listOwnerOrAdminRequired_ok hnd1 hfl hid hacc
  obtain ⟨y, hy⟩ :=
    @exists_find_eq_some _ (fun x => x.id == lid && x.deleted_at.isSome) _ _
      hfl (by simp [hid])
  set db2 := dbRestoreList db1 lid now2 with hdb2
  have hstep2 : restoreList db1 u lid now2 = .ok db2 := by
    unfold restoreList findDeletedList
    rw [hdec1, hy]
  have hlists2 : db2.lists = db1.lists.map (fun x =>
      if x.id == lid then { x with deleted_at := none, updated_at := now2 }
      else x) := rfl
  have hitems2 : db2.items = db1.items.map (fun i =>
      if i.shopping_list_id == lid then i.restore else i) := rfl
  refine ⟨db1, db2, hstep1, hstep2, ?_, ?_, ?_, ?_, ?_⟩
  · -- the restored list row is present
    rw [hlists2]
    have := List.mem_map_of_mem (fun x =>
      if x.id == lid then { x with deleted_at := none, updated_at := now2 }
      else x) hfl
    simpa [hid] using this
  · -- every row with the list's id is the restored row
    intro x hx hxid
    rw [hlists2, hlists1] at hx
    simp only [List.mem_map] at hx
    obtain ⟨z, ⟨w, hw, rfl⟩, rfl⟩ := hx
    by_cases h : w.id = lid
    · have hwl : w = l := list_unique_by_id hwf.1 hw hmem (by rw [h, hid])
      subst hwl
      simp [h]
    · simp [h] at hxid
  · -- every item of the list comes back with deleted_at cleared
    intro i hi hiid
    rw [hitems2, hitems1]
    have h1 := List.mem_map_of_mem (fun i =>
      if i.shopping_list_id == lid then i.softDelete now1 else i) hi
    have h2 := List.mem_map_of_mem (fun i =>
      if i.shopping_list_id == lid then i.restore else i) h1
    simpa [hiid, ShoppingListItem.softDelete, ShoppingListItem.restore] using h2
  · -- conversely, items of the list in the final state come from original rows
    intro j hj hjid
    rw [hitems2, hitems1] at hj
    simp only [List.mem_map] at hj
    obtain ⟨z, ⟨w, hw, rfl⟩, rfl⟩ := hj
    refine ⟨w, hw, ?_⟩
    by_cases h : w.shopping_list_id = lid
    · simp [h, ShoppingListItem.softDelete, ShoppingListItem.restore]
    · simp [h] at hjid
  · -- items of other lists are untouched
    intro i hi hiid
    rw [hitems2, hitems1]
    have h1 := List.mem_map_of_mem (fun i =>
      if i.shopping_list_id == lid then i.softDelete now1 else i) hi
    have h2 := List.mem_map_of_mem (fun i =>
      if i.shopping_list_id == lid then i.restore else i) h1
    simpa [hiid, ShoppingListItem.softDelete, ShoppingListItem.restore] using h2

/-- Witness for C5 at the concrete one-list, one-item store. -/
theorem c5_restore_after_soft_delete_roundtrip_witness :
    DB.wf demoDb ∧
    findActiveList demoDb 1 = some demoList ∧
    (alice.is_admin || demoList.user_id == alice.id) = true ∧
    (∃ db1 db2, deleteList demoDb alice 1 10 = .ok db1 ∧
      restoreList db1 alice 1 11 = .ok db2 ∧
      ({ demoList with deleted_at := none, updated_at := 11 } ∈ db2.lists) ∧
      (∀ x ∈ db2.lists, x.id = 1 → x.deleted_at = none ∧ x.guid = demoList.guid ∧
        x.title = demoList.title ∧ x.version = demoList.version ∧
        x.is_shared = demoList.is_shared ∧ x.user_id = demoList.user_id) ∧
      (∀ i ∈ demoDb.items, i.shopping_list_id = 1 →
        { i with deleted_at := none } ∈ db2.items) ∧
      (∀ j ∈ db2.items, j.shopping_list_id = 1 →
        ∃ i ∈ demoDb.items, j = { i with deleted_at := none }) ∧
      (∀ i ∈ demoDb.items, i.shopping_list_id ≠ 1 → i ∈ db2.items)) :=
  ⟨by decide, rfl, rfl,
   c5_restore_after_soft_delete_roundtrip demoDb alice 1 10 11 demoList
     (by decide) rfl rfl⟩

/-! ## C6 -/

/-- No active row carries a guid different from every row's guid: helper for
the NotFound conclusion of C6. -/
theorem getSharedList_notFound_of_no_guid {db : DB} {g : Nat}
    (h : ∀ x ∈ db.lists, x.guid ≠ g) :
    getSharedList db g = .error .notFound := by
  unfold getSharedList
  have hnone : db.lists.find? (fun l => l.deleted_at.isNone && l.guid == g) = none := by
    rw [List.find?_eq_none]
    intro x hx
    simp only [Bool.and_eq_true, beq_iff_eq, not_and]
    intro _
    exact h x hx
  rw [hnone]

/-- C6: through either update pathway (`update_list` or
`toggle_share_list`), turning `is_shared` from true to false replaces the
list's GUID with a fresh value different from the prior one, and the prior
GUID afterwards resolves to NotFound via the public-share lookup. -/
theorem c6_guid_rotation_on_unshare
    (db : DB) (u : User) (lid now : Nat) (l : ShoppingList)
    (hwf : db.wf)
    (hfind : findActiveList db lid = some l)
    (hshared : l.is_shared = true)
    (hacc : (u.is_admin || l.user_id == u.id) = true) :
    (∃ db', updateList db u lid
        { title := none, is_shared := some false, version := none } now = .ok db' ∧
      (∃ x ∈ db'.lists, x.id = lid ∧ x.is_shared = false ∧ x.guid ≠ l.guid) ∧
      getSharedList db' l.guid = .error .notFound) ∧
    (∃ db2, toggleShareList db u lid (some false) now = .ok db2 ∧
      (∃ x ∈ db2.lists, x.id = lid ∧ x.is_shared = false ∧ x.guid ≠ l.guid) ∧
      getSharedList db2 l.guid = .error .notFound) := by
  obtain ⟨hmem, hid, hdel⟩ := findActiveList_spec hfind
  have hdec := listOwnerOrAdminRequired_ok hwf.1 hmem hid hacc
  have hguid : l.guid < db.nextGuid := hwf.2.2.2.1 l hmem
  have hfreshne : db.nextGuid ≠ l.guid := by omega
  -- no OTHER row carries l's guid either (guid uniqueness)
  have hunique : ∀ w ∈ db.lists, w.id ≠ lid → w.guid ≠ l.guid := by
    intro w hw hwid heq
    exact hwid (by rw [List.inj_on_of_nodup_map hwf.2.2.1 hw hmem heq, hid])
  constructor
  · -- pathway 1: update_list
    have hupd : updateList db u lid { title := none, is_shared := some false, version := none } now = .ok (putList { db with nextGuid := db.nextGuid + 1 } lid { l with guid := db.nextGuid, is_shared := false, version := l.version + 1, updated_at := now }) := by
      unfold updateList
      rw [hdec, hfind]
      simp [shoppingListUpdateSchemaLoad, checkVersion, hshared, ShoppingList.incrementVersion, putList, applyListUpdate, listUpdateRotates]
    refine ⟨_, hupd, ?_, ?_⟩
    · refine ⟨{ l with guid := db.nextGuid, is_shared := false, version := l.version + 1, updated_at := now }, ?_, hid, rfl, hfreshne⟩
      simp only [putList, List.mem_map]
      refine ⟨l, hmem, ?_⟩
      simp [hid]
    · apply getSharedList_notFound_of_no_guid
      intro x hx
      simp only [putList, List.mem_map] at hx
      obtain ⟨w, hw, rfl⟩ := hx
      by_cases h : w.id = lid
      · simpa [h] using hfreshne
      · simpa [h] using hunique w hw h
  · -- pathway 2: toggle_share_list
    have htog : toggleShareList db u lid (some false) now = .ok (putList { db with nextGuid := db.nextGuid + 1 } lid { l with guid := db.nextGuid, is_shared := false, updated_at := now }) := by
      unfold toggleShareList
      rw [hdec, hfind]
      simp [hshared, putList]
    refine ⟨_, htog, ?_, ?_⟩
    · refine ⟨{ l with guid := db.nextGuid, is_shared := false, updated_at := now }, ?_, hid, rfl, hfreshne⟩
      simp only [putList, List.mem_map]
      refine ⟨l, hmem, ?_⟩
      simp [hid]
    · apply getSharedList_notFound_of_no_guid
      intro x hx
      simp only [putList, List.mem_map] at hx
      obtain ⟨w, hw, rfl⟩ := hx
      by_cases h : w.id = lid
      · simpa [h] using hfreshne
      · simpa [h] using hunique w hw h

/-- A shared list owned by `alice`, used by the C6 witness. -/
def demoSharedList : ShoppingList :=
  { demoList with is_shared := true }

/-- Store whose only list is shared. -/
def demoDbShared : DB :=
  { lists := [demoSharedList], items := [], nextGuid := 101, nextItemId := 1 }

/-- Witness for C6 at the concrete shared-list store. -/
theorem c6_guid_rotation_on_unshare_witness :
    DB.wf demoDbShared ∧
    findActiveList demoDbShared 1 = some demoSharedList ∧
    demoSharedList.is_shared = true ∧
    (alice.is_admin || demoSharedList.user_id == alice.id) = true ∧
    ((∃ db', updateList demoDbShared alice 1
        { title := none, is_shared := some false, version := none } 7 = .ok db' ∧
      (∃ x ∈ db'.lists, x.id = 1 ∧ x.is_shared = false ∧
        x.guid ≠ demoSharedList.guid) ∧
      getSharedList db' demoSharedList.guid = .error .notFound) ∧
    (∃ db2, toggleShareList demoDbShared alice 1 (some false) 7 = .ok db2 ∧
      (∃ x ∈ db2.lists, x.id = 1 ∧ x.is_shared = false ∧
        x.guid ≠ demoSharedList.guid) ∧
      getSharedList db2 demoSharedList.guid = .error .notFound)) :=
  ⟨by decide, rfl, rfl, rfl,
   c6_guid_rotation_on_unshare demoDbShared alice 1 7 demoSharedList
     (by decide) rfl rfl rfl⟩

/-! ## C7 -/

/-- After the hard delete of a list (the cascade of `db.session.delete`),
the list id is absent from both partitions and no restore call can recover
the list or any of its former items. -/
theorem hardDelete_terminal (db : DB) (lid : Nat)
    (hnd : (db.items.map (fun x => x.id)).Nodup) :
    (∀ x ∈ (dbHardDeleteList db lid).lists, x.id ≠ lid) ∧
    (∀ i ∈ (dbHardDeleteList db lid).items, i.shopping_list_id ≠ lid) ∧
    findActiveList (dbHardDeleteList db lid) lid = none ∧
    findDeletedList (dbHardDeleteList db lid) lid = none ∧
    (∀ u2 now2, restoreList (dbHardDeleteList db lid) u2 lid now2 =
      .error .notFound) ∧
    (∀ i0 ∈ db.items, i0.shopping_list_id = lid →
      ∀ u2 now2, restoreItem (dbHardDeleteList db lid) u2 i0.id now2 =
        .error ApiError.notFound) := by
  refine ⟨?_, ?_, ?_, ?_, ?_, ?_⟩
  · intro x hx
    have := (List.mem_filter.mp hx).2
    simpa using this
  · intro i hi
    have := (List.mem_filter.mp hi).2
    simpa using this
  · rw [findActiveList, List.find?_eq_none]
    intro x hx
    have := (List.mem_filter.mp hx).2
    simp only [ne_eq, bne_iff_ne] at this
    simp [this]
  · rw [findDeletedList, List.find?_eq_none]
    intro x hx
    have := (List.mem_filter.mp hx).2
    simp only [ne_eq, bne_iff_ne] at this
    simp [this]
  · intro u2 now2
    have hnone : getListAnyPartition (dbHardDeleteList db lid) lid = none := by
      rw [getListAnyPartition, List.find?_eq_none]
      intro x hx
      have := (List.mem_filter.mp hx).2
      simp only [ne_eq, bne_iff_ne] at this
      simp [this]
    unfold restoreList listOwnerOrAdminRequired
    rw [hnone]
  · intro i0 hi0 hi0sid u2 now2
    have hnone : findDeletedItem (dbHardDeleteList db lid) i0.id = none := by
      rw [findDeletedItem, List.find?_eq_none]
      intro x hx
      have hxmem := (List.mem_filter.mp hx).1
      have hxs := (List.mem_filter.mp hx).2
      simp only [ne_eq, bne_iff_ne] at hxs
      simp only [Bool.and_eq_true, beq_iff_eq, not_and]
      intro hxi
      exact absurd
        (by rw [List.inj_on_of_nodup_map hnd hxmem hi0 hxi, hi0sid]) hxs
    unfold restoreItem
    rw [hnone]

/-- C7 counterexample: the claim states permanent deletion of a list is
only reachable for a list currently in the trashed() partition, but
`admin_delete_list` (`DELETE /admin/lists/<id>`, api/v1/admin.py lines
169-200) permanently deletes an ACTIVE list: on the store whose only list
is active with one active item, the admin call succeeds and removes both
the list row and the item row. -/
theorem c7_admin_delete_active_list :
    demoList.deleted_at = none ∧
    (adminDeleteList demoDb rootAdmin 1).map
      (fun d => (d.lists, d.items)) = .ok ([], []) :=
  ⟨rfl, rfl⟩

/-- C7 (amended): permanent deletion of a list removes the list row and
every item row belonging to it (trashed or not) and is terminal — the list
is afterwards absent from both the active and the trashed partition, and
no restore call recovers it or its items. The trash endpoint
`DELETE /trash/lists/<id>` is only reachable for a trashed list (any
successful call was performed on a trashed row), but the admin endpoint
`DELETE /admin/lists/<id>` permanently deletes a list found in ANY
partition, active lists included — with the same terminal effect. -/
theorem c7_permanent_delete_is_terminal
    (db : DB) (u : User) (lid : Nat) (l : ShoppingList)
    (hwf : db.wf)
    (hadmin : u.is_admin = true)
    (hfind : findDeletedList db lid = some l) :
    (∃ db', permanentDeleteList db u lid = .ok db' ∧
      (∀ x ∈ db'.lists, x.id ≠ lid) ∧
      (∀ i ∈ db'.items, i.shopping_list_id ≠ lid) ∧
      findActiveList db' lid = none ∧
      findDeletedList db' lid = none ∧
      (∀ u2 now2, restoreList db' u2 lid now2 = .error .notFound) ∧
      (∀ i0 ∈ db.items, i0.shopping_list_id = lid →
        ∀ u2 now2, restoreItem db' u2 i0.id now2 = .error ApiError.notFound)) ∧
    (∀ db0 u0 lid0 db0', permanentDeleteList db0 u0 lid0 = .ok db0' →
      ∃ l0 ∈ db0.lists, l0.id = lid0 ∧ l0.deleted_at ≠ none) ∧
    (∀ (db0 : DB) (u0 : User) (lid0 : Nat) (l0 : ShoppingList),
      (db0.items.map (fun x => x.id)).Nodup → u0.is_admin = true →
      getListAnyPartition db0 lid0 = some l0 →
      ∃ db0', adminDeleteList db0 u0 lid0 = .ok db0' ∧
        (∀ x ∈ db0'.lists, x.id ≠ lid0) ∧
        (∀ i ∈ db0'.items, i.shopping_list_id ≠ lid0) ∧
        findActiveList db0' lid0 = none ∧
        findDeletedList db0' lid0 = none ∧
        (∀ u2 now2, restoreList db0' u2 lid0 now2 = .error .notFound) ∧
        (∀ i0 ∈ db0.items, i0.shopping_list_id = lid0 →
          ∀ u2 now2, restoreItem db0' u2 i0.id now2 =
            .error ApiError.notFound)) := by
  obtain ⟨t1, t2, t3, t4, t5, t6⟩ := hardDelete_terminal db lid hwf.2.1
  refine ⟨⟨dbHardDeleteList db lid, ?_, t1, t2, t3, t4, t5, t6⟩, ?_, ?_⟩
  · unfold permanentDeleteList
    rw [hfind]
    simp [hadmin]
  · intro db0 u0 lid0 db0' h
    unfold permanentDeleteList at h
    by_cases hA : u0.is_admin
    · simp only [hA, Bool.not_true, Bool.false_eq_true, if_false] at h
      cases hF : findDeletedList db0 lid0 with
      | none => rw [hF] at h; exact absurd h (by simp)
      | some l0 =>
        obtain ⟨hm, hi, hd⟩ := findDeletedList_spec hF
        exact ⟨l0, hm, hi, hd⟩
    · simp [hA] at h
  · intro db0 u0 lid0 l0 hnd0 hadm0 hget0
    obtain ⟨s1, s2, s3, s4, s5, s6⟩ := hardDelete_terminal db0 lid0 hnd0
    refine ⟨dbHardDeleteList db0 lid0, ?_, s1, s2, s3, s4, s5, s6⟩
    unfold adminDeleteList
    rw [hget0]
    simp [hadm0]

/-- The demo list, already in the trash. -/
def demoTrashedList : ShoppingList := { demoList with deleted_at := some 3 }

/-- Store whose only list is trashed, together with one trashed item of it. -/
def demoDbTrash : DB :=
  { lists := [demoTrashedList], items := [demoItemTrashed],
    nextGuid := 101, nextItemId := 3 }

/-- Witness for C7 (amended) at the concrete trashed-list store. -/
theorem c7_permanent_delete_is_terminal_witness :
    DB.wf demoDbTrash ∧
    rootAdmin.is_admin = true ∧
    findDeletedList demoDbTrash 1 = some demoTrashedList ∧
    ((∃ db', permanentDeleteList demoDbTrash rootAdmin 1 = .ok db' ∧
      (∀ x ∈ db'.lists, x.id ≠ 1) ∧
      (∀ i ∈ db'.items, i.shopping_list_id ≠ 1) ∧
      findActiveList db' 1 = none ∧
      findDeletedList db' 1 = none ∧
      (∀ u2 now2, restoreList db' u2 1 now2 = .error .notFound) ∧
      (∀ i0 ∈ demoDbTrash.items, i0.shopping_list_id = 1 →
        ∀ u2 now2, restoreItem db' u2 i0.id now2 = .error ApiError.notFound)) ∧
    (∀ db0 u0 lid0 db0', permanentDeleteList db0 u0 lid0 = .ok db0' →
      ∃ l0 ∈ db0.lists, l0.id = lid0 ∧ l0.deleted_at ≠ none) ∧
    (∀ (db0 : DB) (u0 : User) (lid0 : Nat) (l0 : ShoppingList),
      (db0.items.map (fun x => x.id)).Nodup → u0.is_admin = true →
      getListAnyPartition db0 lid0 = some l0 →
      ∃ db0', adminDeleteList db0 u0 lid0 = .ok db0' ∧
        (∀ x ∈ db0'.lists, x.id ≠ lid0) ∧
        (∀ i ∈ db0'.items, i.shopping_list_id ≠ lid0) ∧
        findActiveList db0' lid0 = none ∧
        findDeletedList db0' lid0 = none ∧
        (∀ u2 now2, restoreList db0' u2 lid0 now2 = .error .notFound) ∧
        (∀ i0 ∈ db0.items, i0.shopping_list_id = lid0 →
          ∀ u2 now2, restoreItem db0' u2 i0.id now2 =
            .error ApiError.notFound))) :=
  ⟨by decide, rfl, rfl,
   c7_permanent_delete_is_terminal demoDbTrash rootAdmin 1 demoTrashedList
     (by decide) rfl rfl⟩

/-! ## C8 -/

/-- The owner/admin decorator only ever fails with NotFound or Forbidden. -/
theorem listOwnerOrAdminRequired_error {db : DB} {u : User} {lid : Nat}
    {e : ApiError} (h : listOwnerOrAdminRequired db u lid = .error e) :
    e = .notFound ∨ e = .forbidden := by
  unfold listOwnerOrAdminRequired at h
  split at h
  · simp only [Except.error.injEq] at h
    exact Or.inl h.symm
  · split at h
    · exact absurd h (by simp)
    · simp only [Except.error.injEq] at h
      exact Or.inr h.symm

/-- A payload carrying a non-positive version never passes the list update
schema. -/
theorem schemaLoad_error_of_nonpositive_version {p : ListUpdatePayload}
    {v : Int} (hv : p.version = some v) (hneg : v < 1) :
    shoppingListUpdateSchemaLoad p = .error .validationError := by
  unfold shoppingListUpdateSchemaLoad
  split
  · rfl
  · rw [if_pos]
    rw [hv]
    simp only [Option.any_some]
    exact decide_eq_true hneg

/-- C8: a list mutation request carrying a client-submitted version of 0 or
a negative value can never surface as a version Conflict, and whenever the
request reaches the handler (the list exists in the active partition and
the principal passes the owner/admin decorator) it is rejected as a
request-validation failure — the schema fires before `check_version` ever
runs. -/
theorem c8_nonpositive_version_is_validation_failure
    (db : DB) (u : User) (lid now : Nat) (p : ListUpdatePayload) (v : Int)
    (hv : p.version = some v) (hneg : v < 1) :
    (∀ c e, updateList db u lid p now ≠ .error (.conflict c e)) ∧
    (∀ l, findActiveList db lid = some l →
      (db.lists.map (fun x => x.id)).Nodup →
      (u.is_admin || l.user_id == u.id) = true →
      updateList db u lid p now = .error .validationError) := by
  constructor
  · intro c e
    unfold updateList
    cases hD : listOwnerOrAdminRequired db u lid with
    | error e' =>
      rcases listOwnerOrAdminRequired_error hD with h | h <;>
        simp [h]
    | ok y =>
      cases hF : findActiveList db lid with
      | none => simp
      | some l =>
        rw [schemaLoad_error_of_nonpositive_version hv hneg]
        simp
  · intro l hfind hnd hacc
    obtain ⟨hmem, hid, hdel⟩ := findActiveList_spec hfind
    have hdec := listOwnerOrAdminRequired_ok hnd hmem hid hacc
    unfold updateList
    rw [hdec, hfind, schemaLoad_error_of_nonpositive_version hv hneg]

/-- Witness for C8 with a concrete version-0 payload. -/
theorem c8_nonpositive_version_is_validation_failure_witness :
    ({ title := none, is_shared := none, version := some 0 } :
        ListUpdatePayload).version = some 0 ∧
    (0 : Int) < 1 ∧
    ((∀ c e, updateList demoDb alice 1
        { title := none, is_shared := none, version := some 0 } 7 ≠
        .error (.conflict c e)) ∧
     (∀ l, findActiveList demoDb 1 = some l →
       (demoDb.lists.map (fun x => x.id)).Nodup →
       (alice.is_admin || l.user_id == alice.id) = true →
       updateList demoDb alice 1
         { title := none, is_shared := none, version := some 0 } 7 =
         .error .validationError)) :=
  ⟨rfl, by decide,
   c8_nonpositive_version_is_validation_failure demoDb alice 1 7
     { title := none, is_shared := none, version := some 0 } 0 rfl (by decide)⟩

/-! ## C9 -/

/-- C9: `clear_checked` soft-deletes exactly the items that are both active
and checked in the list, in one pass; it returns the number of such items;
every other item — in particular every unchecked item, whatever its
`order_index` — is left untouched, and no item outside the target set is
modified in any way. -/
theorem c9_clear_checked_exactly_active_checked
    (db : DB) (u : User) (lid now : Nat) (l : ShoppingList)
    (hwf : db.wf)
    (hfind : findActiveList db lid = some l)
    (hacc : (l.user_id == u.id || u.is_admin) = true) :
    ∃ db' cnt, clearCheckedItems db u lid now = .ok (db', cnt) ∧
      cnt = (db.items.filter (fun i =>
        i.shopping_list_id == lid && i.deleted_at.isNone && i.is_checked)).length ∧
      (∀ i ∈ db.items, i.shopping_list_id = lid → i.deleted_at = none →
        i.is_checked = true → i.softDelete now ∈ db'.items) ∧
      (∀ i ∈ db.items,
        ¬(i.shopping_list_id = lid ∧ i.deleted_at = none ∧ i.is_checked = true) →
        i ∈ db'.items) ∧
      (∀ j ∈ db'.items, j.deleted_at = none → j ∈ db.items) := by
  obtain ⟨hmem, hid, hdel⟩ := findActiveList_spec hfind
  have hacc' : (l.user_id == u.id || u.is_admin || (false && l.is_shared)) = true := by
    simpa using hacc
  have hdec := @listAccessRequired_ok false db u lid l hwf.1 hmem hid hacc'
  refine ⟨{ (touchList db lid now) with items := db.items.map (fun i => if i.shopping_list_id == lid && i.deleted_at.isNone && i.is_checked then i.softDelete now else i) }, _, ?_, rfl, ?_, ?_, ?_⟩
  · unfold clearCheckedItems
    rw [hdec, hfind]
  · intro i hi h1 h2 h3
    simp only [touchList, List.mem_map]
    refine ⟨i, hi, ?_⟩
    simp [h1, h2, h3]
  · intro i hi hnot
    simp only [touchList, List.mem_map]
    refine ⟨i, hi, ?_⟩
    have : ¬(i.shopping_list_id == lid && i.deleted_at.isNone && i.is_checked) = true := by
      simp only [Bool.and_eq_true, beq_iff_eq, Option.isNone_iff_eq_none]
      intro hcontra
      exact hnot ⟨hcontra.1.1, hcontra.1.2, hcontra.2⟩
    simp [this]
  · intro j hj hjdel
    simp only [touchList, List.mem_map] at hj
    obtain ⟨i, hi, rfl⟩ := hj
    by_cases h : (i.shopping_list_id == lid && i.deleted_at.isNone && i.is_checked) = true
    · rw [if_pos h] at hjdel ⊢
      simp [ShoppingListItem.softDelete] at hjdel
    · rw [if_neg h] at hjdel ⊢
      exact hi

/-- A checked active item of the demo list. -/
def demoItemChecked : ShoppingListItem :=
  { id := 2, shopping_list_id := 1, name := "Eier", quantity := "6",
    is_checked := true, order_index := 2, version := 1, created_at := 0,
    deleted_at := none }

/-- Store with one unchecked and one checked active item. -/
def demoDbChecked : DB :=
  { lists := [demoList], items := [demoItemActive, demoItemChecked],
    nextGuid := 101, nextItemId := 3 }

/-- Witness for C9 at the concrete two-item store (one checked, one not). -/
theorem c9_clear_checked_exactly_active_checked_witness :
    DB.wf demoDbChecked ∧
    findActiveList demoDbChecked 1 = some demoList ∧
    (demoList.user_id == alice.id || alice.is_admin) = true ∧
    (∃ db' cnt, clearCheckedItems demoDbChecked alice 1 20 = .ok (db', cnt) ∧
      cnt = (demoDbChecked.items.filter (fun i =>
        i.shopping_list_id == 1 && i.deleted_at.isNone && i.is_checked)).length ∧
      (∀ i ∈ demoDbChecked.items, i.shopping_list_id = 1 → i.deleted_at = none →
        i.is_checked = true → i.softDelete 20 ∈ db'.items) ∧
      (∀ i ∈ demoDbChecked.items,
        ¬(i.shopping_list_id = 1 ∧ i.deleted_at = none ∧ i.is_checked = true) →
        i ∈ db'.items) ∧
      (∀ j ∈ db'.items, j.deleted_at = none → j ∈ demoDbChecked.items)) :=
  ⟨by decide, rfl, rfl,
   c9_clear_checked_exactly_active_checked demoDbChecked alice 1 20 demoList
     (by decide) rfl rfl⟩

/-! ## C10 -/

/-- C10: for the item-level operations addressed by numeric item id (get,
update, toggle, soft-delete), access is granted exactly when the requester
is the parent list's owner, or an admin, or the parent list's `is_shared`
flag is true: when the disjunction fails each operation returns Forbidden,
and when it holds each operation goes through (the update provided its
payload passes validation). -/
theorem c10_item_access_owner_admin_or_shared
    (db : DB) (u : User) (iid : Nat) (it : ShoppingListItem) (l : ShoppingList)
    (hfind : findActiveItem db iid = some it)
    (hlist : getListAnyPartition db it.shopping_list_id = some l) :
    (itemAccessGranted u l = false →
      getItem db u iid = .error .forbidden ∧
      (∀ p now, updateItem db u iid p now = .error .forbidden) ∧
      (∀ now, toggleItem db u iid now = .error .forbidden) ∧
      (∀ now, deleteItem db u iid now = .error .forbidden)) ∧
    (itemAccessGranted u l = true →
      getItem db u iid = .ok it ∧
      (∀ p now, shoppingListItemUpdateSchemaLoad p = .ok p →
        ∃ db', updateItem db u iid p now = .ok db') ∧
      (∀ now, ∃ db', toggleItem db u iid now = .ok db') ∧
      (∀ now, ∃ db', deleteItem db u iid now = .ok db')) := by
  constructor
  · intro hno
    refine ⟨?_, ?_, ?_, ?_⟩
    · unfold getItem
      rw [hfind]
      simp [hlist, hno]
    · intro p now
      unfold updateItem
      rw [hfind]
      simp [hlist, hno]
    · intro now
      unfold toggleItem
      rw [hfind]
      simp [hlist, hno]
    · intro now
      unfold deleteItem
      rw [hfind]
      simp [hlist, hno]
  · intro hyes
    refine ⟨?_, ?_, ?_, ?_⟩
    · unfold getItem
      rw [hfind]
      simp [hlist, hyes]
    · intro p now hp
      unfold updateItem
      rw [hfind]
      simp [hlist, hyes, hp]
    · intro now
      unfold toggleItem
      rw [hfind]
      simp [hlist, hyes]
    · intro now
      unfold deleteItem
      rw [hfind]
      simp [hlist, hyes]

/-- Store whose only list is shared and holds one active item, used by the
C10 witness. -/
def demoDbSharedItem : DB :=
  { lists := [demoSharedList], items := [demoItemActive],
    nextGuid := 101, nextItemId := 3 }

/-- A second authenticated non-admin user, not the owner of any demo list. -/
def bob : User := ⟨2, false⟩

/-- Witness for C10: `bob` is neither owner nor admin, yet the parent list
is shared, so the access disjunction holds for him. -/
theorem c10_item_access_owner_admin_or_shared_witness :
    findActiveItem demoDbSharedItem 1 = some demoItemActive ∧
    getListAnyPartition demoDbSharedItem demoItemActive.shopping_list_id =
      some demoSharedList ∧
    ((itemAccessGranted bob demoSharedList = false →
      getItem demoDbSharedItem bob 1 = .error .forbidden ∧
      (∀ p now, updateItem demoDbSharedItem bob 1 p now = .error .forbidden) ∧
      (∀ now, toggleItem demoDbSharedItem bob 1 now = .error .forbidden) ∧
      (∀ now, deleteItem demoDbSharedItem bob 1 now = .error .forbidden)) ∧
    (itemAccessGranted bob demoSharedList = true →
      getItem demoDbSharedItem bob 1 = .ok demoItemActive ∧
      (∀ p now, shoppingListItemUpdateSchemaLoad p = .ok p →
        ∃ db', updateItem demoDbSharedItem bob 1 p now = .ok db') ∧
      (∀ now, ∃ db', toggleItem demoDbSharedItem bob 1 now = .ok db') ∧
      (∀ now, ∃ db', deleteItem demoDbSharedItem bob 1 now = .ok db'))) :=
  ⟨rfl, rfl,
   c10_item_access_owner_admin_or_shared demoDbSharedItem bob 1 demoItemActive
     demoSharedList rfl rfl⟩

/-! ## C4 (amended): invariant preservation -/

theorem applyListUpdate_deleted_at (l : ShoppingList) (vp : ListUpdatePayload)
    (g : Nat) : (applyListUpdate l vp g).deleted_at = l.deleted_at := by
  unfold applyListUpdate
  cases vp.title <;> cases vp.is_shared <;>
    first
    | rfl
    | (dsimp only; split <;> rfl)

theorem applyItemUpdate_sid (it : ShoppingListItem) (vp : ItemUpdatePayload) :
    (applyItemUpdate it vp).shopping_list_id = it.shopping_list_id := by
  unfold applyItemUpdate
  cases vp.name <;> cases vp.quantity <;> cases vp.is_checked <;> rfl

theorem applyItemUpdate_deleted_at (it : ShoppingListItem)
    (vp : ItemUpdatePayload) :
    (applyItemUpdate it vp).deleted_at = it.deleted_at := by
  unfold applyItemUpdate
  cases vp.name <;> cases vp.quantity <;> cases vp.is_checked <;> rfl

/-- Replacing a list row by an ACTIVE row preserves trash consistency. -/
theorem consistentTrash_putList {db : DB} {lid : Nat} {l' : ShoppingList}
    (hinv : db.consistentTrash) (hact : l'.deleted_at = none) :
    (putList db lid l').consistentTrash := by
  intro x hx hxtr i hi hsid
  simp only [putList, List.mem_map] at hx
  obtain ⟨y, hy, rfl⟩ := hx
  by_cases h : y.id = lid
  · rw [if_pos (by simp [h])] at hxtr
    exact absurd hact hxtr
  · rw [if_neg (by simp [h])] at hxtr hsid
    exact hinv y hy hxtr i hi hsid

/-- Refreshing a list's `updated_at` preserves trash consistency. -/
theorem consistentTrash_touchList {db : DB} {lid now : Nat}
    (hinv : db.consistentTrash) : (touchList db lid now).consistentTrash := by
  intro x hx hxtr i hi hsid
  simp only [touchList, List.mem_map] at hx
  obtain ⟨y, hy, rfl⟩ := hx
  by_cases h : y.id = lid
  · rw [if_pos (by simp [h])] at hxtr hsid
    exact hinv y hy hxtr i hi hsid
  · rw [if_neg (by simp [h])] at hxtr hsid
    exact hinv y hy hxtr i hi hsid

/-- Replacing an item row preserves trash consistency as long as the new
row is not an active item of a trashed list. -/
theorem consistentTrash_putItem {db : DB} {iid : Nat} {it' : ShoppingListItem}
    (hinv : db.consistentTrash)
    (hsafe : ∀ l ∈ db.lists, l.deleted_at ≠ none →
      l.id = it'.shopping_list_id → it'.deleted_at ≠ none) :
    (putItem db iid it').consistentTrash := by
  intro x hx hxtr i hi hsid
  simp only [putItem, List.mem_map] at hi
  obtain ⟨z, hz, rfl⟩ := hi
  by_cases h : z.id = iid
  · rw [if_pos (by simp [h])] at hsid ⊢
    exact hsafe x hx hxtr hsid.symm
  · rw [if_neg (by simp [h])] at hsid ⊢
    exact hinv x hx hxtr z hz hsid

/-- The list soft-delete cascade preserves trash consistency. -/
theorem consistentTrash_softDeleteList {db : DB} {lid now : Nat}
    (hinv : db.consistentTrash) :
    (dbSoftDeleteList db lid now).consistentTrash := by
  intro x hx hxtr i hi hsid
  simp only [dbSoftDeleteList, List.mem_map] at hx hi
  obtain ⟨y, hy, rfl⟩ := hx
  obtain ⟨z, hz, rfl⟩ := hi
  by_cases hzs : z.shopping_list_id = lid
  · rw [if_pos (by simp [hzs])]
    simp [ShoppingListItem.softDelete]
  · rw [if_neg (by simp [hzs])] at hsid ⊢
    by_cases hyl : y.id = lid
    · rw [if_pos (by simp [hyl])] at hsid
      exact absurd (by simpa using hsid.trans hyl) hzs
    · rw [if_neg (by simp [hyl])] at hxtr hsid
      exact hinv y hy hxtr z hz hsid

/-- The list restore cascade preserves trash consistency. -/
theorem consistentTrash_restoreList {db : DB} {lid now : Nat}
    (hinv : db.consistentTrash) :
    (dbRestoreList db lid now).consistentTrash := by
  intro x hx hxtr i hi hsid
  simp only [dbRestoreList, List.mem_map] at hx hi
  obtain ⟨y, hy, rfl⟩ := hx
  obtain ⟨z, hz, rfl⟩ := hi
  by_cases hyl : y.id = lid
  · simp [hyl] at hxtr
  · simp only [hyl, beq_iff_eq, if_false] at hxtr hsid
    by_cases hzs : z.shopping_list_id = lid
    · simp only [hzs, beq_self_eq_true, if_true, ShoppingListItem.restore] at hsid
      exact absurd hsid.symm hyl
    · simp only [hzs, beq_iff_eq, if_false] at hsid ⊢
      exact hinv y hy hxtr z hz hsid

/-- One successful invocation of any public operation of the v1 API that
mutates the lists/items tables, other than `restore_item`: list
create / update / share-toggle / soft-delete / restore / permanent-delete,
the admin list hard-delete, the admin user deletion (whose cascade removes
the user's lists and their items), item create / update / toggle /
soft-delete / reorder, and clear-checked. The remaining v1 endpoints
(authentication, user profile updates, token management, and all reads)
leave both tables unchanged. -/
inductive StepNoRestoreItem : DB → DB → Prop where
  | stepCreateList (db : DB) (u : User) (title : String) (is_shared : Bool)
      (newId now : Nat) (db' : DB)
      (h : createList db u title is_shared newId now = .ok db') :
      StepNoRestoreItem db db'
  | stepAdminDeleteList (db : DB) (u : User) (lid : Nat) (db' : DB)
      (h : adminDeleteList db u lid = .ok db') : StepNoRestoreItem db db'
  | stepDeleteUser (db : DB) (admin : User) (uid : Nat) (db' : DB)
      (h : deleteUser db admin uid = .ok db') : StepNoRestoreItem db db'
  | stepUpdateList (db : DB) (u : User) (lid : Nat) (p : ListUpdatePayload)
      (now : Nat) (db' : DB) (h : updateList db u lid p now = .ok db') :
      StepNoRestoreItem db db'
  | stepToggleShare (db : DB) (u : User) (lid : Nat) (req : Option Bool)
      (now : Nat) (db' : DB) (h : toggleShareList db u lid req now = .ok db') :
      StepNoRestoreItem db db'
  | stepDeleteList (db : DB) (u : User) (lid now : Nat) (db' : DB)
      (h : deleteList db u lid now = .ok db') : StepNoRestoreItem db db'
  | stepRestoreList (db : DB) (u : User) (lid now : Nat) (db' : DB)
      (h : restoreList db u lid now = .ok db') : StepNoRestoreItem db db'
  | stepPermanentDeleteList (db : DB) (u : User) (lid : Nat) (db' : DB)
      (h : permanentDeleteList db u lid = .ok db') : StepNoRestoreItem db db'
  | stepCreateItem (db : DB) (u : User) (lid : Nat) (name quantity : String)
      (now : Nat) (db' : DB) (h : createItem db u lid name quantity now = .ok db') :
      StepNoRestoreItem db db'
  | stepUpdateItem (db : DB) (u : User) (iid : Nat) (p : ItemUpdatePayload)
      (now : Nat) (db' : DB) (h : updateItem db u iid p now = .ok db') :
      StepNoRestoreItem db db'
  | stepToggleItem (db : DB) (u : User) (iid now : Nat) (db' : DB)
      (h : toggleItem db u iid now = .ok db') : StepNoRestoreItem db db'
  | stepDeleteItem (db : DB) (u : User) (iid now : Nat) (db' : DB)
      (h : deleteItem db u iid now = .ok db') : StepNoRestoreItem db db'
  | stepReorderItem (db : DB) (u : User) (iid : Nat) (req : Option Int)
      (now : Nat) (db' : DB) (h : reorderItem db u iid req now = .ok db') :
      StepNoRestoreItem db db'
  | stepClearChecked (db : DB) (u : User) (lid now : Nat) (db' : DB) (cnt : Nat)
      (h : clearCheckedItems db u lid now = .ok (db', cnt)) :
      StepNoRestoreItem db db'

/-- C4 (amended): every public operation of the v1 API that mutates the
lists/items tables, other than `restore_item`, preserves the invariant that
no trashed list has an active item (the original claim's universal form
fails only through `restore_item`, per the counterexample). -/
theorem c4_trash_consistency_preserved_except_restore_item
    (db db' : DB) (hwf : db.wf) (hinv : db.consistentTrash)
    (hstep : StepNoRestoreItem db db') : db'.consistentTrash := by
  cases hstep with
  | stepUpdateList u lid p now db' h =>
    unfold updateList at h
    split at h
    · exact absurd h (by simp)
    · split at h
      · exact absurd h (by simp)
      · split at h
        · exact absurd h (by simp)
        · split at h
          · exact absurd h (by simp)
          · simp only [Except.ok.injEq] at h
            subst h
            rename_i x1 y hdec x2 l hfind x3 vp hsch x4 uu hchk
            obtain ⟨hm, hid, hdel⟩ := findActiveList_spec hfind
            refine consistentTrash_putList ?_ ?_
            · by_cases hc : listUpdateRotates l vp = true
              · simp only [hc, if_true]
                exact hinv
              · simp only [hc, if_false]
                exact hinv
            · show (applyListUpdate l vp db.nextGuid).deleted_at = none
              rw [applyListUpdate_deleted_at]
              exact hdel
  | stepToggleShare u lid req now db' h =>
    unfold toggleShareList at h
    split at h
    · exact absurd h (by simp)
    · split at h
      · exact absurd h (by simp)
      · split at h
        · exact absurd h (by simp)
        · simp only [Except.ok.injEq] at h
          subst h
          rename_i x1 y hdec x2 l hfind x3 sh
          obtain ⟨hm, hid, hdel⟩ := findActiveList_spec hfind
          refine consistentTrash_putList ?_ ?_
          · by_cases hc : (l.is_shared && !sh) = true
            · simp only [hc, if_true]
              exact hinv
            · simp only [hc, if_false]
              exact hinv
          · by_cases hc : (l.is_shared && !sh) = true
            · simp only [hc, if_true]
              exact hdel
            · simp only [hc, if_false]
              exact hdel
  | stepDeleteList u lid now db' h =>
    unfold deleteList at h
    split at h
    · exact absurd h (by simp)
    · split at h
      · exact absurd h (by simp)
      · simp only [Except.ok.injEq] at h
        subst h
        exact consistentTrash_softDeleteList hinv
  | stepRestoreList u lid now db' h =>
    unfold restoreList at h
    split at h
    · exact absurd h (by simp)
    · split at h
      · exact absurd h (by simp)
      · simp only [Except.ok.injEq] at h
        subst h
        exact consistentTrash_restoreList hinv
  | stepPermanentDeleteList u lid db' h =>
    unfold permanentDeleteList at h
    split at h
    · exact absurd h (by simp)
    · split at h
      · exact absurd h (by simp)
      · simp only [Except.ok.injEq] at h
        subst h
        intro x hx hxtr i hi hsid
        have hx' := (List.mem_filter.mp hx).1
        have hi' := (List.mem_filter.mp hi).1
        exact hinv x hx' hxtr i hi' hsid
  | stepAdminDeleteList u lid db' h =>
    unfold adminDeleteList at h
    split at h
    · exact absurd h (by simp)
    · split at h
      · exact absurd h (by simp)
      · simp only [Except.ok.injEq] at h
        subst h
        intro x hx hxtr i hi hsid
        have hx' := (List.mem_filter.mp hx).1
        have hi' := (List.mem_filter.mp hi).1
        exact hinv x hx' hxtr i hi' hsid
  | stepDeleteUser admin uid db' h =>
    unfold deleteUser at h
    split at h
    · exact absurd h (by simp)
    · split at h
      · exact absurd h (by simp)
      · simp only [Except.ok.injEq] at h
        subst h
        intro x hx hxtr i hi hsid
        have hx' := (List.mem_filter.mp hx).1
        have hi' := (List.mem_filter.mp hi).1
        exact hinv x hx' hxtr i hi' hsid
  | stepCreateList u title is_shared newId now db' h =>
    unfold createList at h
    split at h
    · exact absurd h (by simp)
    · simp only [Except.ok.injEq] at h
      subst h
      intro x hx hxtr i hi hsid
      rw [List.mem_append] at hx
      rcases hx with hx | hx
      · exact hinv x hx hxtr i hi hsid
      · simp only [List.mem_singleton] at hx
        subst hx
        exact absurd rfl hxtr
  | stepCreateItem u lid name quantity now db' h =>
    unfold createItem at h
    split at h
    · exact absurd h (by simp)
    · split at h
      · exact absurd h (by simp)
      · split at h
        · exact absurd h (by simp)
        · simp only [Except.ok.injEq] at h
          subst h
          rename_i x1 y hdec x2 l hfind x3 uu hsch
          obtain ⟨hm, hid, hdel⟩ := findActiveList_spec hfind
          intro x hx hxtr i hi hsid
          simp only [touchList, List.mem_map] at hx
          obtain ⟨w, hw, rfl⟩ := hx
          rw [List.mem_append] at hi
          have hxid : (if (w.id == lid) = true
              then { w with updated_at := now } else w).id = w.id := by
            split <;> rfl
          have hxdel : (if (w.id == lid) = true
              then { w with updated_at := now } else w).deleted_at =
              w.deleted_at := by
            split <;> rfl
          rw [hxdel] at hxtr
          rw [hxid] at hsid
          rcases hi with hi | hi
          · exact hinv w hw hxtr i hi hsid
          · simp only [List.mem_singleton] at hi
            subst hi
            have hwlid : w.id = lid := by simpa using hsid.symm
            have hwl : w = l := list_unique_by_id hwf.1 hw hm (by rw [hwlid, hid])
            subst hwl
            exact absurd hdel hxtr
  | stepUpdateItem u iid p now db' h =>
    unfold updateItem at h
    split at h
    · exact absurd h (by simp)
    · split at h
      · exact absurd h (by simp)
      · split at h
        · split at h
          · exact absurd h (by simp)
          · simp only [Except.ok.injEq] at h
            subst h
            rename_i x1 it hfindIt x2 l hlist hacc x3 vp hsch
            obtain ⟨hm, hiid, hdel⟩ := findActiveItem_spec hfindIt
            refine consistentTrash_touchList (consistentTrash_putItem hinv ?_)
            intro x hx hxtr hxid
            rw [applyItemUpdate_sid] at hxid
            rw [applyItemUpdate_deleted_at]
            exact hinv x hx hxtr it hm hxid.symm
        · exact absurd h (by simp)
  | stepToggleItem u iid now db' h =>
    unfold toggleItem at h
    split at h
    · exact absurd h (by simp)
    · split at h
      · exact absurd h (by simp)
      · split at h
        · simp only [Except.ok.injEq] at h
          subst h
          rename_i x1 it hfindIt x2 l hlist hacc
          obtain ⟨hm, hiid, hdel⟩ := findActiveItem_spec hfindIt
          refine consistentTrash_touchList (consistentTrash_putItem hinv ?_)
          intro x hx hxtr hxid
          exact hinv x hx hxtr it hm (by simpa using hxid.symm)
        · exact absurd h (by simp)
  | stepDeleteItem u iid now db' h =>
    unfold deleteItem at h
    split at h
    · exact absurd h (by simp)
    · split at h
      · exact absurd h (by simp)
      · split at h
        · simp only [Except.ok.injEq] at h
          subst h
          refine consistentTrash_touchList (consistentTrash_putItem hinv ?_)
          intro x hx hxtr hxid
          simp [ShoppingListItem.softDelete]
        · exact absurd h (by simp)
  | stepReorderItem u iid req now db' h =>
    unfold reorderItem at h
    split at h
    · exact absurd h (by simp)
    · split at h
      · exact absurd h (by simp)
      · split at h
        · split at h
          · exact absurd h (by simp)
          · split at h
            · exact absurd h (by simp)
            · simp only [Except.ok.injEq] at h
              subst h
              rename_i x1 it hfindIt x2 l hlist hacc x3 v hneg
              obtain ⟨hm, hiid, hdel⟩ := findActiveItem_spec hfindIt
              refine consistentTrash_touchList (consistentTrash_putItem hinv ?_)
              intro x hx hxtr hxid
              exact hinv x hx hxtr it hm (by simpa using hxid.symm)
        · exact absurd h (by simp)
  | stepClearChecked u lid now db' cnt h =>
    unfold clearCheckedItems at h
    split at h
    · exact absurd h (by simp)
    · split at h
      · exact absurd h (by simp)
      · simp only [Except.ok.injEq, Prod.mk.injEq] at h
        obtain ⟨h1, h2⟩ := h
        subst h1
        intro x hx hxtr i hi hsid
        simp only [touchList, List.mem_map] at hx hi
        obtain ⟨w, hw, rfl⟩ := hx
        obtain ⟨z, hz, rfl⟩ := hi
        have hxdel : (if (w.id == lid) = true
            then { w with updated_at := now } else w).deleted_at =
            w.deleted_at := by
          split <;> rfl
        have hxid : (if (w.id == lid) = true
            then { w with updated_at := now } else w).id = w.id := by
          split <;> rfl
        rw [hxdel] at hxtr
        rw [hxid] at hsid
        by_cases hz3 : (z.shopping_list_id == lid && z.deleted_at.isNone &&
            z.is_checked) = true
        · rw [if_pos hz3]
          simp [ShoppingListItem.softDelete]
        · rw [if_neg hz3] at hsid ⊢
          exact hinv w hw hxtr z hz hsid

/-- Witness for C4 (amended): one concrete step (the list soft-delete) out
of a well-formed, trash-consistent store. -/
theorem c4_trash_consistency_preserved_except_restore_item_witness :
    DB.wf demoDb ∧ DB.consistentTrash demoDb ∧
    DB.consistentTrash (dbSoftDeleteList demoDb 1 10) :=
  ⟨by decide, by decide,
   c4_trash_consistency_preserved_except_restore_item demoDb
     (dbSoftDeleteList demoDb 1 10) (by decide) (by decide)
     (StepNoRestoreItem.stepDeleteList demoDb alice 1 10
       (dbSoftDeleteList demoDb 1 10) rfl)⟩

end ShoppingApp
